import Mathlib

/-!
Verification of the PCap container subsystem (`bliss/core/pcap.py`) and the
Time8 overlay codec fixture of this repository, as a shallow embedding.

Files are modelled as lists of natural-number bytes; a stream position is
modelled by passing the remaining suffix of the file.  `struct.pack`/`unpack`
with the formats used by the source (`IHHiIII` for the global header, `IIII`
for the packet header, no padding in either) are modelled by explicit
little/big-endian byte serialisation, with the host's native order kept as an
explicit `ByteOrder` parameter, mirroring the `'@'` format character.
-/

namespace AIT

/-- Byte order of a multi-byte field: big- or little-endian. -/
inductive ByteOrder where
  | be : ByteOrder
  | le : ByteOrder
deriving DecidableEq

/-- Model of the module-level `EndianSwap` computation: the byte order
opposite to the host's native one (`'<'` when native is big-endian, `'>'`
otherwise). -/
def endianSwap : ByteOrder → ByteOrder
  | .be => .le
  | .le => .be

/-- Little-endian serialisation of `n` into `w` bytes (least significant
first), as done by `struct.pack` with a little-endian unsigned format. -/
def packLE : Nat → Nat → List Nat
  | 0, _ => []
  | w + 1, n => n % 256 :: packLE w (n / 256)

/-- Serialisation of `n` into `w` bytes in the given byte order. -/
def packOrd : ByteOrder → Nat → Nat → List Nat
  | .le, w, n => packLE w n
  | .be, w, n => (packLE w n).reverse

/-- Little-endian deserialisation, inverse of `packLE`. -/
def unpackLE : List Nat → Nat
  | [] => 0
  | b :: bs => b + 256 * unpackLE bs

/-- Deserialisation of a byte list in the given byte order. -/
def unpackOrd : ByteOrder → List Nat → Nat
  | .le, bs => unpackLE bs
  | .be, bs => unpackLE bs.reverse

/-- Reinterpret a 32-bit unsigned value as the signed value `struct.unpack`
yields for the `i` format code (two's complement). -/
def toSigned32 (n : Nat) : Int :=
  if n < 2 ^ 31 then (n : Int) else (n : Int) - 2 ^ 32

theorem packLE_length (w n : Nat) : (packLE w n).length = w := by
  induction w generalizing n with
  | zero => rfl
  | succ w ih => simp [packLE, ih]

theorem packOrd_length (o : ByteOrder) (w n : Nat) : (packOrd o w n).length = w := by
  cases o <;> simp [packOrd, packLE_length]

theorem unpackLE_packLE (w n : Nat) : unpackLE (packLE w n) = n % 256 ^ w := by
  induction w generalizing n with
  | zero => simp [packLE, unpackLE, Nat.mod_one]
  | succ w ih =>
    rw [packLE, unpackLE, ih, pow_succ']
    exact (Nat.mod_mul).symm

theorem unpackOrd_packOrd (o : ByteOrder) (w n : Nat) :
    unpackOrd o (packOrd o w n) = n % 256 ^ w := by
  cases o <;> simp [packOrd, unpackOrd, unpackLE_packLE]

theorem unpackOrd_packOrd_of_lt {o : ByteOrder} {w n : Nat} (h : n < 256 ^ w) :
    unpackOrd o (packOrd o w n) = n := by
  rw [unpackOrd_packOrd, Nat.mod_eq_of_lt h]

/-- Field values of a PCap global header (`PCapGlobalHeader` attributes
`magic_number` .. `network`); `thiszone` is signed (`i` format code), the
rest unsigned. -/
structure GlobalFields where
  magic_number : Nat
  version_major : Nat
  version_minor : Nat
  thiszone : Int
  sigfigs : Nat
  snaplen : Nat
  network : Nat
deriving DecidableEq

/-- State of a `PCapGlobalHeader` object: the resolved byte order stored in
`_swap` (with `'@'` rendered as the host's native order), the decoded field
values (`none` models the all-`None` tuple produced for a short read), and
`len(self._data)`. -/
structure PCapGlobalHeader where
  swap : ByteOrder
  fields : Option GlobalFields
  dataLen : Nat
deriving DecidableEq

/-- Field values of a PCap packet header (`ts_sec`, `ts_usec`, `incl_len`,
`orig_len`, format `IIII`). -/
structure PacketFields where
  ts_sec : Nat
  ts_usec : Nat
  incl_len : Nat
  orig_len : Nat
deriving DecidableEq

/-- State of a `PCapPacketHeader` object: `_swap`, decoded fields (`none`
models the all-`None` tuple on a short read) and `len(self._data)`. -/
structure PCapPacketHeader where
  swap : ByteOrder
  fields : Option PacketFields
  dataLen : Nat
deriving DecidableEq

/-- Default global-header field values assigned by
`PCapGlobalHeader.__init__` when no stream is given. -/
def PCapGlobalHeader.defaultFields : GlobalFields :=
  { magic_number := 0xA1B2C3D4
  , version_major := 2
  , version_minor := 4
  , thiszone := 0
  , sigfigs := 0
  , snaplen := 65535
  , network := 147 }

/-- Binary form of a global header, `PCapGlobalHeader.__str__`:
`struct.pack('IHHiIII', ...)` in the host's native order (the format string
carries no explicit order character). -/
def GlobalFields.toBytes (native : ByteOrder) (g : GlobalFields) : List Nat :=
  packOrd native 4 g.magic_number ++
    (packOrd native 2 g.version_major ++
      (packOrd native 2 g.version_minor ++
        (packOrd native 4 (g.thiszone % (2 ^ 32 : Int)).toNat ++
          (packOrd native 4 g.sigfigs ++
            (packOrd native 4 g.snaplen ++ packOrd native 4 g.network)))))

/-- Decoding of the seven `IHHiIII` fields of a 24-byte global header in
byte order `o` (offsets 0, 4, 6, 8, 12, 16, 20). -/
def unpackGlobalFields (o : ByteOrder) (data : List Nat) : GlobalFields :=
  { magic_number := unpackOrd o (data.take 4)
  , version_major := unpackOrd o ((data.drop 4).take 2)
  , version_minor := unpackOrd o ((data.drop 6).take 2)
  , thiszone := toSigned32 (unpackOrd o ((data.drop 8).take 4))
  , sigfigs := unpackOrd o ((data.drop 12).take 4)
  , snaplen := unpackOrd o ((data.drop 16).take 4)
  , network := unpackOrd o ((data.drop 20).take 4) }

/-- Resolution of `_swap` in `PCapGlobalHeader.read` from the
natively-unpacked magic number: `'@'` (native) on the two native-order
magics, `EndianSwap` on the two byte-swapped magics, and unchanged — i.e.
still the `'@'` set in `__init__`, the native order — on anything else. -/
def pcapResolveSwap (native : ByteOrder) (magic : Nat) : ByteOrder :=
  if magic = 0xA1B2C3D4 ∨ magic = 0xA1B23C4D then native
  else if magic = 0xD4C3B2A1 ∨ magic = 0x4D3CB2A1 then endianSwap native
  else native

/-- Model of `PCapGlobalHeader.read`: consume up to 24 bytes; when the full
header is present, inspect the natively-unpacked magic number to resolve
`_swap`, then re-unpack all fields with the resolved order; on a short read
all fields are `None`.  Returns the header object and the remaining stream
suffix. -/
def PCapGlobalHeader.read (native : ByteOrder) (stream : List Nat) :
    PCapGlobalHeader × List Nat :=
  let data := stream.take 24
  let rest := stream.drop 24
  if 24 ≤ data.length then
    let swap := pcapResolveSwap native (unpackOrd native (data.take 4))
    (⟨swap, some (unpackGlobalFields swap data), data.length⟩, rest)
  else
    (⟨native, none, data.length⟩, rest)

/-- Model of `PCapGlobalHeader.incomplete`: `len(self._data) < self._size`
with size `struct.calcsize('IHHiIII') = 24`. -/
def PCapGlobalHeader.incomplete (h : PCapGlobalHeader) : Bool :=
  h.dataLen < 24

/-- Model of `PCapPacketHeader.read`: consume up to 16 bytes; when the full
header is present, unpack `ts_sec`, `ts_usec`, `incl_len`, `orig_len` with
the header's `_swap` order; otherwise all fields are `None`. -/
def PCapPacketHeader.read (swap : ByteOrder) (stream : List Nat) :
    PCapPacketHeader × List Nat :=
  let data := stream.take 16
  let rest := stream.drop 16
  if 16 ≤ data.length then
    (⟨swap,
      some { ts_sec := unpackOrd swap (data.take 4)
           , ts_usec := unpackOrd swap ((data.drop 4).take 4)
           , incl_len := unpackOrd swap ((data.drop 8).take 4)
           , orig_len := unpackOrd swap ((data.drop 12).take 4) },
      data.length⟩, rest)
  else
    (⟨swap, none, data.length⟩, rest)

/-- Model of `PCapPacketHeader.incomplete`: `len(self._data) < 16`. -/
def PCapPacketHeader.incomplete (h : PCapPacketHeader) : Bool :=
  h.dataLen < 16

/-- Field values assigned by `PCapPacketHeader.__init__` when constructed for
writing: the capture timestamp from the clock, `incl_len = min(orig_len,
maxlen)` and `orig_len` as given. -/
def PCapPacketHeader.new (ts_sec ts_usec orig_len maxlen : Nat) : PacketFields :=
  { ts_sec := ts_sec
  , ts_usec := ts_usec
  , incl_len := min orig_len maxlen
  , orig_len := orig_len }

/-- Binary form of a packet header, `PCapPacketHeader.__str__`:
`struct.pack('IIII', ...)` in the host's native order. -/
def PacketFields.toBytes (native : ByteOrder) (f : PacketFields) : List Nat :=
  packOrd native 4 f.ts_sec ++
    (packOrd native 4 f.ts_usec ++
      (packOrd native 4 f.incl_len ++ packOrd native 4 f.orig_len))

/-- Model of `PCapStream.read`: read one packet header with the stream's
detected byte order; when it is not incomplete, read `incl_len` payload
bytes, else the packet stays `None`.  Returns the header, the optional
packet, and the remaining stream suffix. -/
def PCapStream.read (swap : ByteOrder) (stream : List Nat) :
    PCapPacketHeader × Option (List Nat) × List Nat :=
  let hr := PCapPacketHeader.read swap stream
  if hr.1.incomplete then (hr.1, none, hr.2)
  else
    match hr.1.fields with
    | some f => (hr.1, some (hr.2.take f.incl_len), hr.2.drop f.incl_len)
    | none => (hr.1, none, hr.2)

/-- Model of `PCapStream.write`: build a packet header from the clock with
`orig_len = len(bytes)` and the default `maxlen = 65535`, truncate the
payload to `incl_len`, emit header then payload, flush, and return
`incl_len`.  Yields the byte string appended to the file and the return
value.  The method body never consults `self.header`. -/
def PCapStream.write (native : ByteOrder) (ts_sec ts_usec : Nat)
    (payload : List Nat) : List Nat × Nat :=
  let f := PCapPacketHeader.new ts_sec ts_usec payload.length 65535
  (PacketFields.toBytes native f ++ payload.take f.incl_len, f.incl_len)

/-- Model of the `PCapStream.write` method including the (unused) `self`
state: the source's method body never reads `self.header`, so the result is
that of `PCapStream.write` regardless of the open container's header. -/
def PCapStream.writeOn (_header : PCapGlobalHeader) (native : ByteOrder)
    (ts_sec ts_usec : Nat) (payload : List Nat) : List Nat × Nat :=
  PCapStream.write native ts_sec ts_usec payload

/-- Open modes of `PCapStream.__init__` / `pcap.open`. -/
inductive Mode where
  | r : Mode
  | w : Mode
  | a : Mode
deriving DecidableEq

/-- Effect of `PCapStream.__init__` on the file contents for write and
append modes: mode `w` truncates and writes the default global header; mode
`a` writes the default global header only when the position (the existing
length) is zero; read mode writes nothing. -/
def PCapStream.openFile (native : ByteOrder) (mode : Mode)
    (existing : List Nat) : List Nat :=
  match mode with
  | .w => GlobalFields.toBytes native PCapGlobalHeader.defaultFields
  | .a =>
    if existing.length = 0 then
      existing ++ GlobalFields.toBytes native PCapGlobalHeader.defaultFields
    else existing
  | .r => existing

/-- Concatenated byte strings produced by one `PCapStream.write` call per
entry `(ts_sec, ts_usec, payload)`. -/
def recordsBytes (native : ByteOrder) : List (Nat × Nat × List Nat) → List Nat
  | [] => []
  | e :: es => (PCapStream.write native e.1 e.2.1 e.2.2).1 ++ recordsBytes native es

/-- Calling `PCapStream.write` once per entry, appending to `file`. -/
def PCapStream.writeAll (native : ByteOrder) (entries : List (Nat × Nat × List Nat))
    (file : List Nat) : List Nat :=
  entries.foldl (fun f e => f ++ (PCapStream.write native e.1 e.2.1 e.2.2).1) file

/-- Iterating a `PCapStream` (`next`/`__iter__`): repeatedly `read()`,
stopping at the first read whose packet is `None` (`StopIteration`); `fuel`
bounds the number of reads attempted. -/
def PCapStream.readAll (swap : ByteOrder) :
    Nat → List Nat → List (PacketFields × List Nat)
  | 0, _ => []
  | fuel + 1, stream =>
    let r := PCapStream.read swap stream
    match r.2.1, r.1.fields with
    | some pkt, some f => (f, pkt) :: PCapStream.readAll swap fuel r.2.2
    | _, _ => []

/-- Packet timestamp `PCapPacketHeader.ts` as an exact rational,
`float(ts_sec) + float(ts_usec) / 1e6`; comparisons between the
`datetime` values built from such timestamps agree with comparisons of the
rationals. -/
def PacketFields.ts (f : PacketFields) : ℚ :=
  (f.ts_sec : ℚ) + (f.ts_usec : ℚ) / 1000000

/-- The record filter used by `query`:
`header.timestamp <= start and header.timestamp > end`. -/
def queryKeep (start endt ts : ℚ) : Bool :=
  decide (ts ≤ start) && decide (endt < ts)

/-- Bytes written to the output file by `query(filename, starttime,
endtime)`: the source opens the input, performs a single `stream.read()`
(no loop), and, when a packet was returned and the filter holds, writes
that packet header and packet to the fresh output file (to which no global
header has been written). -/
def query (native : ByteOrder) (start endt : ℚ) (file : List Nat) : List Nat :=
  let opened := PCapGlobalHeader.read native file
  let r := PCapStream.read opened.1.swap opened.2
  match r.2.1, r.1.fields with
  | some pkt, some f =>
    if queryKeep start endt f.ts then f.toBytes native ++ pkt else []
  | _, _ => []

/-- Spec-side membership test for the range query: the packet timestamp
falls within the half-open interval from `start` (inclusive) to `endt`
(exclusive). -/
def querySpecKeep (start endt ts : ℚ) : Prop :=
  start ≤ ts ∧ ts < endt

namespace Time8Type

/-- Modelled from the spec: the repository's `Time8Type` overlay codec lives
in the `dtype` module, which is not present under the sources (only its
test `testTIME8` is); per the spec, decode reads the one-byte unsigned
physical code and returns `code / 256.0`, while `raw = true` returns the
untransformed physical code. -/
def decode (raw : Bool) (data : List Nat) : Option ℚ :=
  match data with
  | code :: _ => some (if raw then (code : ℚ) else (code : ℚ) / 256)
  | [] => none

/-- Modelled from the spec: `Time8Type.encode(fraction)` computes
`round(fraction * 256)` as the physical code and packs it as the single
byte of the 8-bit unsigned physical descriptor. -/
def encode (fraction : ℚ) : List Nat :=
  packLE 1 (round (fraction * 256)).toNat

end Time8Type

/-- The write-then-reopen scenario of the spec's packet-capture round-trip
property: open a fresh container for write (mode `w`), call
`PCapStream.write` once per entry `(ts_sec, ts_usec, payload)`, close, and
reopen the resulting file for read (which reads the global header). -/
def writeThenReopen (native : ByteOrder)
    (entries : List (Nat × Nat × List Nat)) : PCapGlobalHeader × List Nat :=
  PCapGlobalHeader.read native
    (PCapStream.writeAll native entries (PCapStream.openFile native .w []))

theorem PCapStream.readAll_nil (swap : ByteOrder) (fuel : Nat) :
    PCapStream.readAll swap fuel [] = [] := by
  cases fuel with
  | zero => rfl
  | succ fuel =>
    simp [PCapStream.readAll, PCapStream.read, PCapPacketHeader.read,
      PCapPacketHeader.incomplete]

theorem PCapStream.read_short (swap : ByteOrder) (s : List Nat)
    (h : s.length < 16) :
    PCapStream.read swap s = (⟨swap, none, s.length⟩, none, []) := by
  have htake : s.take 16 = s := List.take_of_length_le (Nat.le_of_lt h)
  have hdrop : s.drop 16 = [] := List.drop_of_length_le (Nat.le_of_lt h)
  have hif : ¬ (16 ≤ s.length) := Nat.not_le_of_lt h
  simp [PCapStream.read, PCapPacketHeader.read, htake, hdrop, hif,
    PCapPacketHeader.incomplete, h]

theorem PCapStream.readAll_short (swap : ByteOrder) (fuel : Nat) (s : List Nat)
    (h : s.length < 16) :
    PCapStream.readAll swap fuel s = [] := by
  cases fuel with
  | zero => rfl
  | succ fuel => simp [PCapStream.readAll, PCapStream.read_short swap s h]

theorem PCapPacketHeader.read_fourChunks (o : ByteOrder) (A B C D rest : List Nat)
    (hA : A.length = 4) (hB : B.length = 4) (hC : C.length = 4)
    (hD : D.length = 4) :
    PCapPacketHeader.read o (A ++ (B ++ (C ++ (D ++ rest))))
      = (⟨o, some { ts_sec := unpackOrd o A, ts_usec := unpackOrd o B
                  , incl_len := unpackOrd o C, orig_len := unpackOrd o D }, 16⟩,
         rest) := by
  have hdata : A ++ (B ++ (C ++ (D ++ rest))) = (A ++ (B ++ (C ++ D))) ++ rest := by
    simp [List.append_assoc]
  have hlen : (A ++ (B ++ (C ++ D))).length = 16 := by
    simp [hA, hB, hC, hD]
  have htake : (A ++ (B ++ (C ++ (D ++ rest)))).take 16 = A ++ (B ++ (C ++ D)) := by
    rw [hdata]; exact List.take_left' hlen
  have hdrop : (A ++ (B ++ (C ++ (D ++ rest)))).drop 16 = rest := by
    rw [hdata]; exact List.drop_left' hlen
  have e1 : (A ++ (B ++ (C ++ D))).take 4 = A := List.take_left' hA
  have d4 : (A ++ (B ++ (C ++ D))).drop 4 = B ++ (C ++ D) := List.drop_left' hA
  have e2 : (B ++ (C ++ D)).take 4 = B := List.take_left' hB
  have d8 : (A ++ (B ++ (C ++ D))).drop 8 = C ++ D := by
    have : (4 : Nat) + 4 = 8 := rfl
    rw [← this, ← List.drop_drop, d4, List.drop_left' hB]
  have e3 : (C ++ D).take 4 = C := List.take_left' hC
  have d12 : (A ++ (B ++ (C ++ D))).drop 12 = D := by
    have : (8 : Nat) + 4 = 12 := rfl
    rw [← this, ← List.drop_drop, d8, List.drop_left' hC]
  have e4 : D.take 4 = D := by rw [← hD]; exact List.take_length D
  simp only [PCapPacketHeader.read, htake, hdrop, hlen, e1, d4, e2, d8, e3,
    d12, e4]
  norm_num

theorem PCapPacketHeader.read_toBytes (o : ByteOrder) (f : PacketFields)
    (rest : List Nat) (h1 : f.ts_sec < 2 ^ 32) (h2 : f.ts_usec < 2 ^ 32)
    (h3 : f.incl_len < 2 ^ 32) (h4 : f.orig_len < 2 ^ 32) :
    PCapPacketHeader.read o (f.toBytes o ++ rest) = (⟨o, some f, 16⟩, rest) := by
  have h : f.toBytes o ++ rest
      = packOrd o 4 f.ts_sec ++ (packOrd o 4 f.ts_usec ++
          (packOrd o 4 f.incl_len ++ (packOrd o 4 f.orig_len ++ rest))) := by
    simp [PacketFields.toBytes, List.append_assoc]
  rw [h, PCapPacketHeader.read_fourChunks o _ _ _ _ rest (packOrd_length o 4 _)
    (packOrd_length o 4 _) (packOrd_length o 4 _) (packOrd_length o 4 _)]
  rw [unpackOrd_packOrd_of_lt h1, unpackOrd_packOrd_of_lt h2,
    unpackOrd_packOrd_of_lt h3, unpackOrd_packOrd_of_lt h4]

theorem take_min_self (p : List Nat) (n : Nat) :
    p.take (min p.length n) = p.take n := by
  rcases Nat.le_total p.length n with h | h
  · rw [Nat.min_eq_left h, List.take_length, List.take_of_length_le h]
  · rw [Nat.min_eq_right h]

theorem PCapStream.read_write (native : ByteOrder) (s u : Nat)
    (p rest : List Nat) (h1 : s < 2 ^ 32) (h2 : u < 2 ^ 32)
    (h3 : p.length < 2 ^ 32) :
    PCapStream.read native ((PCapStream.write native s u p).1 ++ rest)
      = (⟨native, some (PCapPacketHeader.new s u p.length 65535), 16⟩,
         some (p.take 65535), rest) := by
  have hincl : (PCapPacketHeader.new s u p.length 65535).incl_len
      = min p.length 65535 := rfl
  have hm : min p.length 65535 ≤ p.length := Nat.min_le_left _ _
  have h3' : (PCapPacketHeader.new s u p.length 65535).incl_len < 2 ^ 32 :=
    lt_of_le_of_lt (hincl ▸ hm) h3
  have hlen : (p.take (min p.length 65535)).length = min p.length 65535 := by
    rw [List.length_take, Nat.min_eq_left]
    exact le_trans hm (Nat.le_refl _)
  have hassoc : (PCapStream.write native s u p).1 ++ rest
      = (PCapPacketHeader.new s u p.length 65535).toBytes native ++
        (p.take (min p.length 65535) ++ rest) := by
    simp [PCapStream.write, List.append_assoc, PCapPacketHeader.new]
  rw [hassoc]
  simp only [PCapStream.read,
    PCapPacketHeader.read_toBytes native _ _ h1 h2 h3' h3,
    PCapPacketHeader.incomplete]
  norm_num
  constructor
  · rw [hincl, List.take_left' hlen, take_min_self]
  · rw [hincl, List.drop_left' hlen]

theorem PCapStream.writeAll_eq (native : ByteOrder)
    (entries : List (Nat × Nat × List Nat)) (file : List Nat) :
    PCapStream.writeAll native entries file = file ++ recordsBytes native entries := by
  induction entries generalizing file with
  | nil => simp [PCapStream.writeAll, recordsBytes]
  | cons e es ih =>
    rw [recordsBytes, PCapStream.writeAll, List.foldl_cons]
    rw [show (List.foldl (fun f e => f ++ (PCapStream.write native e.1 e.2.1 e.2.2).1)
        (file ++ (PCapStream.write native e.1 e.2.1 e.2.2).1) es)
      = PCapStream.writeAll native es (file ++ (PCapStream.write native e.1 e.2.1 e.2.2).1)
      from rfl]
    rw [ih, List.append_assoc]

theorem PCapStream.readAll_recordsBytes (native : ByteOrder)
    (entries : List (Nat × Nat × List Nat)) (fuel : Nat)
    (hb : ∀ e ∈ entries, e.1 < 2 ^ 32 ∧ e.2.1 < 2 ^ 32 ∧ e.2.2.length < 2 ^ 32)
    (hf : entries.length ≤ fuel) :
    PCapStream.readAll native fuel (recordsBytes native entries)
      = entries.map (fun e =>
          (PCapPacketHeader.new e.1 e.2.1 e.2.2.length 65535, e.2.2.take 65535)) := by
  induction entries generalizing fuel with
  | nil => simp [recordsBytes, PCapStream.readAll_nil]
  | cons e es ih =>
    cases fuel with
    | zero => simp at hf
    | succ fuel =>
      obtain ⟨h1, h2, h3⟩ := hb e (List.mem_cons_self e es)
      rw [recordsBytes, PCapStream.readAll]
      simp only [PCapStream.read_write native e.1 e.2.1 e.2.2 _ h1 h2 h3]
      rw [ih fuel (fun x hx => hb x (List.mem_cons_of_mem e hx))
        (Nat.le_of_succ_le_succ hf)]
      simp

theorem PCapGlobalHeader.read_sevenChunks (native : ByteOrder)
    (A B C D E F G rest : List Nat)
    (hA : A.length = 4) (hB : B.length = 2) (hC : C.length = 2)
    (hD : D.length = 4) (hE : E.length = 4) (hF : F.length = 4)
    (hG : G.length = 4) :
    PCapGlobalHeader.read native
        (A ++ (B ++ (C ++ (D ++ (E ++ (F ++ (G ++ rest)))))))
      = (⟨pcapResolveSwap native (unpackOrd native A),
          some { magic_number := unpackOrd (pcapResolveSwap native (unpackOrd native A)) A
               , version_major := unpackOrd (pcapResolveSwap native (unpackOrd native A)) B
               , version_minor := unpackOrd (pcapResolveSwap native (unpackOrd native A)) C
               , thiszone := toSigned32 (unpackOrd (pcapResolveSwap native (unpackOrd native A)) D)
               , sigfigs := unpackOrd (pcapResolveSwap native (unpackOrd native A)) E
               , snaplen := unpackOrd (pcapResolveSwap native (unpackOrd native A)) F
               , network := unpackOrd (pcapResolveSwap native (unpackOrd native A)) G },
          24⟩, rest) := by
  have hdata : A ++ (B ++ (C ++ (D ++ (E ++ (F ++ (G ++ rest))))))
      = (A ++ (B ++ (C ++ (D ++ (E ++ (F ++ G)))))) ++ rest := by
    simp [List.append_assoc]
  have hlen : (A ++ (B ++ (C ++ (D ++ (E ++ (F ++ G)))))).length = 24 := by
    simp [hA, hB, hC, hD, hE, hF, hG]
  have htake : (A ++ (B ++ (C ++ (D ++ (E ++ (F ++ (G ++ rest))))))).take 24
      = A ++ (B ++ (C ++ (D ++ (E ++ (F ++ G))))) := by
    rw [hdata]; exact List.take_left' hlen
  have hdrop : (A ++ (B ++ (C ++ (D ++ (E ++ (F ++ (G ++ rest))))))).drop 24
      = rest := by
    rw [hdata]; exact List.drop_left' hlen
  have e1 : (A ++ (B ++ (C ++ (D ++ (E ++ (F ++ G)))))).take 4 = A :=
    List.take_left' hA
  have d4 : (A ++ (B ++ (C ++ (D ++ (E ++ (F ++ G)))))).drop 4
      = B ++ (C ++ (D ++ (E ++ (F ++ G)))) := List.drop_left' hA
  have e2 : (B ++ (C ++ (D ++ (E ++ (F ++ G))))).take 2 = B := List.take_left' hB
  have d6 : (A ++ (B ++ (C ++ (D ++ (E ++ (F ++ G)))))).drop 6
      = C ++ (D ++ (E ++ (F ++ G))) := by
    have h46 : (4 : Nat) + 2 = 6 := rfl
    rw [← h46, ← List.drop_drop, d4, List.drop_left' hB]
  have e3 : (C ++ (D ++ (E ++ (F ++ G)))).take 2 = C := List.take_left' hC
  have d8 : (A ++ (B ++ (C ++ (D ++ (E ++ (F ++ G)))))).drop 8
      = D ++ (E ++ (F ++ G)) := by
    have h68 : (6 : Nat) + 2 = 8 := rfl
    rw [← h68, ← List.drop_drop, d6, List.drop_left' hC]
  have e4 : (D ++ (E ++ (F ++ G))).take 4 = D := List.take_left' hD
  have d12 : (A ++ (B ++ (C ++ (D ++ (E ++ (F ++ G)))))).drop 12
      = E ++ (F ++ G) := by
    have h812 : (8 : Nat) + 4 = 12 := rfl
    rw [← h812, ← List.drop_drop, d8, List.drop_left' hD]
  have e5 : (E ++ (F ++ G)).take 4 = E := List.take_left' hE
  have d16 : (A ++ (B ++ (C ++ (D ++ (E ++ (F ++ G)))))).drop 16 = F ++ G := by
    have h1216 : (12 : Nat) + 4 = 16 := rfl
    rw [← h1216, ← List.drop_drop, d12, List.drop_left' hE]
  have e6 : (F ++ G).take 4 = F := List.take_left' hF
  have d20 : (A ++ (B ++ (C ++ (D ++ (E ++ (F ++ G)))))).drop 20 = G := by
    have h1620 : (16 : Nat) + 4 = 20 := rfl
    rw [← h1620, ← List.drop_drop, d16, List.drop_left' hF]
  have e7 : G.take 4 = G := by rw [← hG]; exact List.take_length G
  simp only [PCapGlobalHeader.read, unpackGlobalFields, pcapResolveSwap, htake,
    hdrop, hlen, e1, d4, e2, d6, e3, d8, e4, d12, e5, d16, e6, d20, e7]
  norm_num

theorem PCapGlobalHeader.read_defaultBytes (native : ByteOrder) (rest : List Nat) :
    PCapGlobalHeader.read native
        (GlobalFields.toBytes native PCapGlobalHeader.defaultFields ++ rest)
      = (⟨native, some PCapGlobalHeader.defaultFields, 24⟩, rest) := by
  have h : GlobalFields.toBytes native PCapGlobalHeader.defaultFields ++ rest
      = packOrd native 4 0xA1B2C3D4 ++ (packOrd native 2 2 ++ (packOrd native 2 4 ++
          (packOrd native 4 0 ++ (packOrd native 4 0 ++ (packOrd native 4 65535 ++
            (packOrd native 4 147 ++ rest)))))) := by
    simp [GlobalFields.toBytes, PCapGlobalHeader.defaultFields, List.append_assoc]
  rw [h, PCapGlobalHeader.read_sevenChunks native _ _ _ _ _ _ _ rest
    (packOrd_length _ _ _) (packOrd_length _ _ _) (packOrd_length _ _ _)
    (packOrd_length _ _ _) (packOrd_length _ _ _) (packOrd_length _ _ _)
    (packOrd_length _ _ _)]
  rw [unpackOrd_packOrd_of_lt (by norm_num)]
  rw [show pcapResolveSwap native 0xA1B2C3D4 = native from by
    simp [pcapResolveSwap]]
  rw [unpackOrd_packOrd_of_lt (by norm_num), unpackOrd_packOrd_of_lt (by norm_num),
    unpackOrd_packOrd_of_lt (by norm_num), unpackOrd_packOrd_of_lt (by norm_num),
    unpackOrd_packOrd_of_lt (by norm_num), unpackOrd_packOrd_of_lt (by norm_num)]
  simp [PCapGlobalHeader.defaultFields, toSigned32]

theorem toSigned32_emod (z : Int) (hlo : -(2 ^ 31) ≤ z) (hhi : z < 2 ^ 31) :
    toSigned32 ((z % (2 ^ 32 : Int)).toNat) = z := by
  unfold toSigned32
  have h0 : 0 ≤ z % (2 ^ 32 : Int) := Int.emod_nonneg z (by norm_num)
  have h1 : z % (2 ^ 32 : Int) < 2 ^ 32 := Int.emod_lt_of_pos z (by norm_num)
  have h2 : z % (2 ^ 32 : Int) = z ∨ z % (2 ^ 32 : Int) = z + 2 ^ 32 := by
    omega
  split <;> omega

theorem PCapGlobalHeader.read_toBytes_native (native : ByteOrder)
    (g : GlobalFields) (rest : List Nat)
    (hm : g.magic_number = 0xA1B2C3D4 ∨ g.magic_number = 0xA1B23C4D)
    (h2 : g.version_major < 2 ^ 16) (h3 : g.version_minor < 2 ^ 16)
    (hz1 : -(2 ^ 31) ≤ g.thiszone) (hz2 : g.thiszone < 2 ^ 31)
    (h5 : g.sigfigs < 2 ^ 32) (h6 : g.snaplen < 2 ^ 32) (h7 : g.network < 2 ^ 32) :
    PCapGlobalHeader.read native (g.toBytes native ++ rest)
      = (⟨native, some g, 24⟩, rest) := by
  have h1 : g.magic_number < 2 ^ 32 := by rcases hm with h | h <;> rw [h] <;> norm_num
  have h : g.toBytes native ++ rest
      = packOrd native 4 g.magic_number ++ (packOrd native 2 g.version_major ++
          (packOrd native 2 g.version_minor ++
            (packOrd native 4 (g.thiszone % (2 ^ 32 : Int)).toNat ++
              (packOrd native 4 g.sigfigs ++ (packOrd native 4 g.snaplen ++
                (packOrd native 4 g.network ++ rest)))))) := by
    simp [GlobalFields.toBytes, List.append_assoc]
  rw [h, PCapGlobalHeader.read_sevenChunks native _ _ _ _ _ _ _ rest
    (packOrd_length _ _ _) (packOrd_length _ _ _) (packOrd_length _ _ _)
    (packOrd_length _ _ _) (packOrd_length _ _ _) (packOrd_length _ _ _)
    (packOrd_length _ _ _)]
  rw [unpackOrd_packOrd_of_lt h1]
  rw [show pcapResolveSwap native g.magic_number = native from by
    rcases hm with h | h <;> simp [pcapResolveSwap, h]]
  rw [unpackOrd_packOrd_of_lt h1,
    unpackOrd_packOrd_of_lt (show g.version_major < 256 ^ 2 by
      norm_num at h2 ⊢; exact h2),
    unpackOrd_packOrd_of_lt (show g.version_minor < 256 ^ 2 by
      norm_num at h3 ⊢; exact h3),
    unpackOrd_packOrd_of_lt (by
      have h0 : 0 ≤ g.thiszone % (2 ^ 32 : Int) := Int.emod_nonneg _ (by norm_num)
      have hlt : g.thiszone % (2 ^ 32 : Int) < 2 ^ 32 :=
        Int.emod_lt_of_pos _ (by norm_num)
      omega),
    unpackOrd_packOrd_of_lt h5, unpackOrd_packOrd_of_lt h6,
    unpackOrd_packOrd_of_lt h7]
  rw [toSigned32_emod g.thiszone hz1 hz2]

theorem PCapGlobalHeader.read_full (native : ByteOrder) (data tail : List Nat)
    (hlen : data.length = 24) :
    PCapGlobalHeader.read native (data ++ tail)
      = (⟨pcapResolveSwap native (unpackOrd native (data.take 4)),
          some (unpackGlobalFields
            (pcapResolveSwap native (unpackOrd native (data.take 4))) data),
          24⟩, tail) := by
  simp only [PCapGlobalHeader.read, List.take_left' hlen, List.drop_left' hlen,
    hlen]
  norm_num

/-- Claim C1: writing N payloads into a fresh container, closing, and
reopening for read yields exactly N records, in write order, each record's
orig_len equal to the payload's length and the returned packet bytes equal
to the payload for payloads of length at most the container's snapLen
(65535, as recorded in the reopened global header), while a longer payload
is stored with incl_len = snapLen and its packet content truncated to
snapLen bytes — both cases captured by incl_len = min(length, 65535) and
packet = payload.take 65535. -/
theorem pcap_write_read_roundtrip (native : ByteOrder)
    (entries : List (Nat × Nat × List Nat)) (fuel : Nat)
    (hb : ∀ e ∈ entries, e.1 < 2 ^ 32 ∧ e.2.1 < 2 ^ 32 ∧ e.2.2.length < 2 ^ 32)
    (hf : entries.length ≤ fuel) :
    (writeThenReopen native entries).1.swap = native ∧
    (writeThenReopen native entries).1.fields
        = some PCapGlobalHeader.defaultFields ∧
    PCapStream.readAll (writeThenReopen native entries).1.swap fuel
        (writeThenReopen native entries).2
      = entries.map (fun e =>
          ({ ts_sec := e.1, ts_usec := e.2.1
           , incl_len := min e.2.2.length 65535
           , orig_len := e.2.2.length }, e.2.2.take 65535)) ∧
    (PCapStream.readAll (writeThenReopen native entries).1.swap fuel
        (writeThenReopen native entries).2).length = entries.length := by
  have hro : writeThenReopen native entries
      = (⟨native, some PCapGlobalHeader.defaultFields, 24⟩,
         recordsBytes native entries) := by
    unfold writeThenReopen
    rw [PCapStream.writeAll_eq]
    exact PCapGlobalHeader.read_defaultBytes native _
  have hall := PCapStream.readAll_recordsBytes native entries fuel hb hf
  refine ⟨by rw [hro], by rw [hro], ?_, ?_⟩
  · rw [hro]
    exact hall
  · rw [hro]
    show (PCapStream.readAll native fuel (recordsBytes native entries)).length
        = entries.length
    rw [hall, List.length_map]

/-- Witness for claim C1 at one concrete entry, fuel 2. -/
theorem pcap_write_read_roundtrip_witness :
    (∀ e ∈ [((1 : Nat), (2 : Nat), [(10 : Nat), 20, 30])],
        e.1 < 2 ^ 32 ∧ e.2.1 < 2 ^ 32 ∧ e.2.2.length < 2 ^ 32) ∧
    [((1 : Nat), (2 : Nat), [(10 : Nat), 20, 30])].length ≤ 2 ∧
    ((writeThenReopen .le [(1, 2, [10, 20, 30])]).1.swap = .le ∧
     (writeThenReopen .le [(1, 2, [10, 20, 30])]).1.fields
        = some PCapGlobalHeader.defaultFields ∧
     PCapStream.readAll (writeThenReopen .le [(1, 2, [10, 20, 30])]).1.swap 2
         (writeThenReopen .le [(1, 2, [10, 20, 30])]).2
       = [({ ts_sec := 1, ts_usec := 2, incl_len := 3, orig_len := 3 },
           [10, 20, 30])] ∧
     (PCapStream.readAll (writeThenReopen .le [(1, 2, [10, 20, 30])]).1.swap 2
         (writeThenReopen .le [(1, 2, [10, 20, 30])]).2).length = 1) :=
  ⟨by decide, by decide,
   pcap_write_read_roundtrip .le [(1, 2, [10, 20, 30])] 2 (by decide) (by decide)⟩

/-- Claim C9: `PCapStream.write` truncates every payload at the fixed
constant 65535 (the default `maxlen` of `PCapPacketHeader`), not at the
snaplen recorded in the open container's global header: the write result is
independent of the stream's header, and the stored incl_len equals
min(len(payload), 65535) whatever snaplen that header carries. -/
theorem pcap_write_truncates_at_constant (header other : PCapGlobalHeader)
    (native : ByteOrder) (ts_sec ts_usec : Nat) (payload : List Nat) :
    PCapStream.writeOn header native ts_sec ts_usec payload
        = PCapStream.writeOn other native ts_sec ts_usec payload ∧
    (PCapStream.writeOn header native ts_sec ts_usec payload).2
        = min payload.length 65535 ∧
    (PCapPacketHeader.new ts_sec ts_usec payload.length 65535).incl_len
        = min payload.length 65535 :=
  ⟨rfl, rfl, rfl⟩

/-- Claim C3, counterexample: on a container whose global header records
snaplen = 100, writing a 200-byte payload stores incl_len = 200 (the
constant-65535 truncation), not min(len(payload), snapLen) = 100: the claim
as stated fails for containers whose snapLen differs from 65535. -/
theorem pcap_write_snaplen_counterexample :
    (PCapGlobalHeader.read ByteOrder.le
        (GlobalFields.toBytes ByteOrder.le
          { magic_number := 0xA1B2C3D4, version_major := 2, version_minor := 4
          , thiszone := 0, sigfigs := 0, snaplen := 100, network := 147 })).1.fields
      = some { magic_number := 0xA1B2C3D4, version_major := 2, version_minor := 4
             , thiszone := 0, sigfigs := 0, snaplen := 100, network := 147 } ∧
    (PCapStream.writeOn
        (PCapGlobalHeader.read ByteOrder.le
          (GlobalFields.toBytes ByteOrder.le
            { magic_number := 0xA1B2C3D4, version_major := 2, version_minor := 4
            , thiszone := 0, sigfigs := 0, snaplen := 100, network := 147 })).1
        ByteOrder.le 0 0 (List.replicate 200 0)).2 = 200 ∧
    min (List.replicate 200 (0 : Nat)).length 100 = 100 ∧
    (200 : Nat) ≠ 100 := by
  have hr := PCapGlobalHeader.read_toBytes_native ByteOrder.le
    { magic_number := 0xA1B2C3D4, version_major := 2, version_minor := 4
    , thiszone := 0, sigfigs := 0, snaplen := 100, network := 147 } []
    (Or.inl rfl) (by norm_num) (by norm_num) (by norm_num) (by norm_num)
    (by norm_num) (by norm_num) (by norm_num)
  rw [List.append_nil] at hr
  refine ⟨by rw [hr], ?_, ?_, by norm_num⟩
  · show min (List.replicate 200 (0 : Nat)).length 65535 = 200
    rw [List.length_replicate]
    omega
  · rw [List.length_replicate]
    omega

/-- Claim C3, amended: `write(payload)` builds a packet header whose
incl_len equals min(len(payload), 65535) — the fixed default `maxlen`,
which coincides with the container's snapLen only when that snapLen is the
default 65535 (always the case for containers opened for write) — and whose
orig_len equals len(payload); it writes the 16-byte header followed by the
first incl_len payload bytes and returns incl_len. -/
theorem pcap_write_truncation_amended (header : PCapGlobalHeader)
    (native : ByteOrder) (ts_sec ts_usec : Nat) (payload : List Nat) :
    (PCapStream.writeOn header native ts_sec ts_usec payload).1
        = (PCapPacketHeader.new ts_sec ts_usec payload.length 65535).toBytes native
            ++ payload.take (min payload.length 65535) ∧
    (PCapPacketHeader.new ts_sec ts_usec payload.length 65535).incl_len
        = min payload.length 65535 ∧
    (PCapPacketHeader.new ts_sec ts_usec payload.length 65535).orig_len
        = payload.length ∧
    ((PCapPacketHeader.new ts_sec ts_usec payload.length 65535).toBytes
        native).length = 16 ∧
    (PCapStream.writeOn header native ts_sec ts_usec payload).2
        = min payload.length 65535 := by
  refine ⟨rfl, rfl, rfl, ?_, rfl⟩
  simp [PacketFields.toBytes, packOrd_length]

/-- Claim C5: during sequential read, reading at a position where fewer
than 16 bytes remain (a truncated packet header) returns a pair whose
packet component is absent and whose header is Incomplete, and iteration
then stops — the read is total, so the end-of-stream condition is a normal
return value (the Incomplete signal), not an I/O error. -/
theorem pcap_read_incomplete_termination (swap : ByteOrder) (s : List Nat)
    (h : s.length < 16) :
    (PCapStream.read swap s).2.1 = none ∧
    (PCapStream.read swap s).1.incomplete = true ∧
    (PCapStream.read swap s).1.fields = none ∧
    ∀ fuel, PCapStream.readAll swap fuel s = [] := by
  rw [PCapStream.read_short swap s h]
  refine ⟨rfl, ?_, rfl, fun fuel => PCapStream.readAll_short swap fuel s h⟩
  simp [PCapPacketHeader.incomplete, h]

/-- Witness for claim C5 on a 3-byte dangling suffix. -/
theorem pcap_read_incomplete_termination_witness :
    ([(1 : Nat), 2, 3].length < 16) ∧
    ((PCapStream.read .le [1, 2, 3]).2.1 = none ∧
     (PCapStream.read .le [1, 2, 3]).1.incomplete = true ∧
     (PCapStream.read .le [1, 2, 3]).1.fields = none ∧
     ∀ fuel, PCapStream.readAll .le fuel [1, 2, 3] = []) :=
  ⟨by decide, pcap_read_incomplete_termination .le [1, 2, 3] (by decide)⟩

/-- Claim C6: when a container opened for read yields fewer than the fixed
24 bytes for its global header, the header is Incomplete (all field values
None), the remaining stream is empty, and a subsequent read() consumes no
packet data: it returns no packet and leaves the remaining stream empty,
and iteration yields no records. -/
theorem pcap_global_header_short (native : ByteOrder) (file : List Nat)
    (h : file.length < 24) :
    (PCapGlobalHeader.read native file).1.incomplete = true ∧
    (PCapGlobalHeader.read native file).1.fields = none ∧
    (PCapGlobalHeader.read native file).2 = [] ∧
    (PCapStream.read (PCapGlobalHeader.read native file).1.swap
        (PCapGlobalHeader.read native file).2).2.1 = none ∧
    (PCapStream.read (PCapGlobalHeader.read native file).1.swap
        (PCapGlobalHeader.read native file).2).2.2 = [] ∧
    ∀ fuel, PCapStream.readAll (PCapGlobalHeader.read native file).1.swap fuel
        (PCapGlobalHeader.read native file).2 = [] := by
  have hr : PCapGlobalHeader.read native file
      = (⟨native, none, file.length⟩, []) := by
    simp only [PCapGlobalHeader.read, List.take_of_length_le (Nat.le_of_lt h),
      List.drop_of_length_le (Nat.le_of_lt h)]
    rw [if_neg (by omega)]
  refine ⟨?_, ?_, ?_, ?_, ?_, ?_⟩
  · rw [hr]
    simp [PCapGlobalHeader.incomplete, h]
  · rw [hr]
  · rw [hr]
  · rw [hr]
    show (PCapStream.read native []).2.1 = none
    rw [PCapStream.read_short native [] (by decide)]
  · rw [hr]
    show (PCapStream.read native []).2.2 = []
    rw [PCapStream.read_short native [] (by decide)]
  · rw [hr]
    intro fuel
    exact PCapStream.readAll_nil native fuel

/-- Witness for claim C6 on a 3-byte file. -/
theorem pcap_global_header_short_witness :
    ([(0 : Nat), 1, 2].length < 24) ∧
    ((PCapGlobalHeader.read .le [0, 1, 2]).1.incomplete = true ∧
     (PCapGlobalHeader.read .le [0, 1, 2]).1.fields = none ∧
     (PCapGlobalHeader.read .le [0, 1, 2]).2 = [] ∧
     (PCapStream.read (PCapGlobalHeader.read .le [0, 1, 2]).1.swap
         (PCapGlobalHeader.read .le [0, 1, 2]).2).2.1 = none ∧
     (PCapStream.read (PCapGlobalHeader.read .le [0, 1, 2]).1.swap
         (PCapGlobalHeader.read .le [0, 1, 2]).2).2.2 = [] ∧
     ∀ fuel, PCapStream.readAll (PCapGlobalHeader.read .le [0, 1, 2]).1.swap
         fuel (PCapGlobalHeader.read .le [0, 1, 2]).2 = []) :=
  ⟨by decide, pcap_global_header_short .le [0, 1, 2] (by decide)⟩

/-- Claim C7: opening a brand-new destination for write (or append at
position zero) writes the 24-byte default global header, in native byte
order, exactly once and before any records (all written records follow
it); opening for append on an existing non-empty destination writes no new
global header. -/
theorem pcap_open_writes_header_once (native : ByteOrder) (existing : List Nat)
    (entries : List (Nat × Nat × List Nat)) :
    PCapStream.openFile native .w existing
        = GlobalFields.toBytes native PCapGlobalHeader.defaultFields ∧
    (GlobalFields.toBytes native PCapGlobalHeader.defaultFields).length = 24 ∧
    GlobalFields.toBytes native PCapGlobalHeader.defaultFields
        = packOrd native 4 0xA1B2C3D4 ++ (packOrd native 2 2 ++
            (packOrd native 2 4 ++ (packOrd native 4 0 ++ (packOrd native 4 0 ++
              (packOrd native 4 65535 ++ packOrd native 4 147))))) ∧
    (existing = [] →
      PCapStream.openFile native .a existing
        = GlobalFields.toBytes native PCapGlobalHeader.defaultFields) ∧
    (existing ≠ [] → PCapStream.openFile native .a existing = existing) ∧
    PCapStream.writeAll native entries (PCapStream.openFile native .w existing)
      = GlobalFields.toBytes native PCapGlobalHeader.defaultFields
          ++ recordsBytes native entries := by
  refine ⟨rfl, ?_, rfl, ?_, ?_, ?_⟩
  · simp [GlobalFields.toBytes, packOrd_length]
  · intro he
    rw [he]
    rfl
  · intro hne
    simp only [PCapStream.openFile]
    rw [if_neg]
    simpa using hne
  · rw [PCapStream.writeAll_eq]
    rfl

/-- Witness for claim C7: append on the non-empty file `[7]` writes
nothing. -/
theorem pcap_open_writes_header_once_witness :
    ([(7 : Nat)] ≠ []) ∧ PCapStream.openFile ByteOrder.le Mode.a [7] = [7] :=
  ⟨by decide,
   (pcap_open_writes_header_once ByteOrder.le [7] []).2.2.2.2.1 (by decide)⟩

/-- Claim C2: opening for read a 24-byte global header whose
natively-unpacked magic is one of the byte-swapped forms 0xD4C3B2A1 or
0x4D3CB2A1 sets the stream's byte order to the foreign (swapped) order, and
every packet header subsequently read with the stream's order — i.e. any
16-byte header serialised in that foreign order — has all four fields
(ts_sec, ts_usec, incl_len, orig_len) decoded correctly, with no caller
intervention; a magic of 0xA1B2C3D4 or the nanosecond-resolution
0xA1B23C4D leaves the order native. -/
theorem pcap_byte_swap_detection (native : ByteOrder) (data tail : List Nat)
    (hlen : data.length = 24) :
    ((unpackOrd native (data.take 4) = 0xD4C3B2A1 ∨
      unpackOrd native (data.take 4) = 0x4D3CB2A1) →
      ((PCapGlobalHeader.read native (data ++ tail)).1.swap = endianSwap native ∧
       ∀ (f : PacketFields) (more : List Nat),
         f.ts_sec < 2 ^ 32 → f.ts_usec < 2 ^ 32 → f.incl_len < 2 ^ 32 →
         f.orig_len < 2 ^ 32 →
         PCapPacketHeader.read ((PCapGlobalHeader.read native (data ++ tail)).1.swap)
             (f.toBytes (endianSwap native) ++ more)
           = (⟨endianSwap native, some f, 16⟩, more))) ∧
    ((unpackOrd native (data.take 4) = 0xA1B2C3D4 ∨
      unpackOrd native (data.take 4) = 0xA1B23C4D) →
      (PCapGlobalHeader.read native (data ++ tail)).1.swap = native) := by
  have hread := PCapGlobalHeader.read_full native data tail hlen
  constructor
  · intro hm
    have hsw : pcapResolveSwap native (unpackOrd native (data.take 4))
        = endianSwap native := by
      rcases hm with h | h <;> rw [h] <;> norm_num [pcapResolveSwap]
    constructor
    · rw [hread]
      exact hsw
    · intro f more h1 h2 h3 h4
      rw [hread]
      show PCapPacketHeader.read
          (pcapResolveSwap native (unpackOrd native (data.take 4)))
          (f.toBytes (endianSwap native) ++ more) = _
      rw [hsw]
      exact PCapPacketHeader.read_toBytes (endianSwap native) f more h1 h2 h3 h4
  · intro hm
    have hsw : pcapResolveSwap native (unpackOrd native (data.take 4))
        = native := by
      rcases hm with h | h <;> rw [h] <;> norm_num [pcapResolveSwap]
    rw [hread]
    exact hsw

/-- Witness for claim C2: a little-endian host reading a header written by
a big-endian peer (magic bytes A1 B2 C3 D4 unpack natively to
0xD4C3B2A1). -/
theorem pcap_byte_swap_detection_witness :
    (([(0xA1 : Nat), 0xB2, 0xC3, 0xD4] ++ List.replicate 20 0).length = 24) ∧
    (((unpackOrd .le (([(0xA1 : Nat), 0xB2, 0xC3, 0xD4]
          ++ List.replicate 20 0).take 4) = 0xD4C3B2A1 ∨
       unpackOrd .le (([(0xA1 : Nat), 0xB2, 0xC3, 0xD4]
          ++ List.replicate 20 0).take 4) = 0x4D3CB2A1) →
      ((PCapGlobalHeader.read .le (([(0xA1 : Nat), 0xB2, 0xC3, 0xD4]
            ++ List.replicate 20 0) ++ [])).1.swap = endianSwap .le ∧
       ∀ (f : PacketFields) (more : List Nat),
         f.ts_sec < 2 ^ 32 → f.ts_usec < 2 ^ 32 → f.incl_len < 2 ^ 32 →
         f.orig_len < 2 ^ 32 →
         PCapPacketHeader.read
             ((PCapGlobalHeader.read .le (([(0xA1 : Nat), 0xB2, 0xC3, 0xD4]
                ++ List.replicate 20 0) ++ [])).1.swap)
             (f.toBytes (endianSwap .le) ++ more)
           = (⟨endianSwap .le, some f, 16⟩, more))) ∧
     ((unpackOrd .le (([(0xA1 : Nat), 0xB2, 0xC3, 0xD4]
          ++ List.replicate 20 0).take 4) = 0xA1B2C3D4 ∨
       unpackOrd .le (([(0xA1 : Nat), 0xB2, 0xC3, 0xD4]
          ++ List.replicate 20 0).take 4) = 0xA1B23C4D) →
      (PCapGlobalHeader.read .le (([(0xA1 : Nat), 0xB2, 0xC3, 0xD4]
          ++ List.replicate 20 0) ++ [])).1.swap = .le)) :=
  ⟨by decide,
   pcap_byte_swap_detection .le ([0xA1, 0xB2, 0xC3, 0xD4] ++ List.replicate 20 0)
     [] (by decide)⟩

/-- Claim C10: a 24-byte global header whose natively-unpacked magic
matches none of the four recognized values is accepted without any error
signal: the byte order silently stays native, all seven header fields are
decoded in native order, the stream continues after the header, and every
subsequent packet-header read with the stream's order behaves exactly as a
native-order read. -/
theorem pcap_unknown_magic_native (native : ByteOrder) (data tail : List Nat)
    (hlen : data.length = 24)
    (hm1 : unpackOrd native (data.take 4) ≠ 0xA1B2C3D4)
    (hm2 : unpackOrd native (data.take 4) ≠ 0xA1B23C4D)
    (hm3 : unpackOrd native (data.take 4) ≠ 0xD4C3B2A1)
    (hm4 : unpackOrd native (data.take 4) ≠ 0x4D3CB2A1) :
    (PCapGlobalHeader.read native (data ++ tail)).1.swap = native ∧
    (PCapGlobalHeader.read native (data ++ tail)).1.fields
        = some (unpackGlobalFields native data) ∧
    (PCapGlobalHeader.read native (data ++ tail)).2 = tail ∧
    ∀ s, PCapPacketHeader.read
        (PCapGlobalHeader.read native (data ++ tail)).1.swap s
      = PCapPacketHeader.read native s := by
  have hsw : pcapResolveSwap native (unpackOrd native (data.take 4)) = native := by
    unfold pcapResolveSwap
    rw [if_neg (by tauto), if_neg (by tauto)]
  have hread := PCapGlobalHeader.read_full native data tail hlen
  rw [hsw] at hread
  refine ⟨by rw [hread], by rw [hread], by rw [hread], ?_⟩
  intro s
  rw [hread]

/-- Witness for claim C10: a 24-byte all-zero header (magic 0). -/
theorem pcap_unknown_magic_native_witness :
    ((List.replicate 24 (0 : Nat)).length = 24) ∧
    (unpackOrd .le ((List.replicate 24 (0 : Nat)).take 4) ≠ 0xA1B2C3D4) ∧
    (unpackOrd .le ((List.replicate 24 (0 : Nat)).take 4) ≠ 0xA1B23C4D) ∧
    (unpackOrd .le ((List.replicate 24 (0 : Nat)).take 4) ≠ 0xD4C3B2A1) ∧
    (unpackOrd .le ((List.replicate 24 (0 : Nat)).take 4) ≠ 0x4D3CB2A1) ∧
    ((PCapGlobalHeader.read .le (List.replicate 24 (0 : Nat) ++ [])).1.swap = .le ∧
     (PCapGlobalHeader.read .le (List.replicate 24 (0 : Nat) ++ [])).1.fields
        = some (unpackGlobalFields .le (List.replicate 24 (0 : Nat))) ∧
     (PCapGlobalHeader.read .le (List.replicate 24 (0 : Nat) ++ [])).2 = [] ∧
     ∀ s, PCapPacketHeader.read
         (PCapGlobalHeader.read .le (List.replicate 24 (0 : Nat) ++ [])).1.swap s
       = PCapPacketHeader.read .le s) :=
  ⟨by decide, by decide, by decide, by decide, by decide,
   pcap_unknown_magic_native .le (List.replicate 24 0) [] (by decide) (by decide)
     (by decide) (by decide) (by decide)⟩

/-- Claim C4 (code bug): the range query is specified to copy exactly the
records whose timestamp lies in the half-open interval from start to end;
on a container holding one record with timestamp 5 s and query range
start = 0, end = 10, the record lies in the interval (querySpecKeep holds),
yet the code's `query` — which reads a single record and applies the
contradictory filter `timestamp <= start and timestamp > end` — copies
nothing to the output. -/
theorem pcap_query_defect_eval :
    query ByteOrder.le 0 10
        (PCapStream.writeAll ByteOrder.le [(5, 0, [42])]
          (PCapStream.openFile ByteOrder.le .w [])) = [] ∧
    querySpecKeep 0 10
      (PacketFields.ts { ts_sec := 5, ts_usec := 0, incl_len := 1, orig_len := 1 }) := by
  constructor
  · have hfile : PCapStream.writeAll ByteOrder.le [(5, 0, [42])]
          (PCapStream.openFile ByteOrder.le .w [])
        = GlobalFields.toBytes ByteOrder.le PCapGlobalHeader.defaultFields
            ++ ((PCapStream.write ByteOrder.le 5 0 [42]).1 ++ []) := by
      rw [PCapStream.writeAll_eq]
      rfl
    have h1 := PCapGlobalHeader.read_defaultBytes ByteOrder.le
      ((PCapStream.write ByteOrder.le 5 0 [42]).1 ++ [])
    have h2 := PCapStream.read_write ByteOrder.le 5 0 [42] []
      (by norm_num) (by norm_num) (by norm_num)
    rw [hfile]
    simp only [query, h1, h2]
    norm_num [queryKeep, PacketFields.ts, PCapPacketHeader.new]
  · constructor <;> norm_num [PacketFields.ts]

/-- Claim C8: the Time8 codec divides the one-byte physical code by 256 on
decode and multiplies by 256 and rounds on encode, and this is round-trip
exact on the fixture value 17: decode([17]) = 17/256, encode(17/256) =
[17], and decode with raw = true returns the untransformed code 17. -/
theorem time8_roundtrip_fixture :
    Time8Type.decode false [17] = some ((17 : ℚ) / 256) ∧
    Time8Type.encode ((17 : ℚ) / 256) = [17] ∧
    Time8Type.decode true [17] = some (17 : ℚ) := by
  refine ⟨by norm_num [Time8Type.decode], ?_, by norm_num [Time8Type.decode]⟩
  have h : round (((17 : ℚ) / 256) * 256) = 17 := by
    norm_num
  simp [Time8Type.encode, h, packLE]

end AIT
